import Mathlib

/-!
Shallow embedding of the Juma provider executor
(internal/runtime/executor/juma_executor.go and juma_upload.go) and proofs of
the specification claims about it.  HTTP exchanges are modelled by explicit
environment records and oracle functions; JSON field access (the gjson library)
is modelled by abstract path-lookup functions supplied as parameters.
-/

namespace CLIProxy

/-- Double-quote character, written via its code point. -/
def dQuote : Char := Char.ofNat 34

/-- Single-quote character, written via its code point. -/
def sQuote : Char := Char.ofNat 39

/-- Whitespace class of the Go regexp escape for spaces: tab, newline,
form feed, carriage return and space. -/
def goSpace (c : Char) : Bool :=
  c == ' ' || c == Char.ofNat 9 || c == Char.ofNat 10 || c == Char.ofNat 12 || c == Char.ofNat 13

/-- Match a literal list of characters at the head of the input and return the
remainder, mirroring a byte-for-byte comparison of a fixed pattern. -/
def dropLit : List Char → List Char → Option (List Char)
  | [], cs => some cs
  | _ :: _, [] => none
  | p :: ps, c :: cs => if p == c then dropLit ps cs else none

/-- Whether a literal list of characters occurs at the head of the input. -/
def isPrefixList (p cs : List Char) : Bool := (dropLit p cs).isSome

/-- Whether a literal list of characters occurs anywhere in the input. -/
def containsList (p : List Char) : List Char → Bool
  | [] => p.isEmpty
  | c :: cs => isPrefixList p (c :: cs) || containsList p cs

/-- Substring test, modelling the Go expression that checks whether a marker
occurs anywhere in a line. -/
def strContains (s pat : String) : Bool :=
  containsList pat.toList s.toList

/-- Whether a string starts with the given literal (strings.HasPrefix). -/
def strStartsWith (s pre : String) : Bool := isPrefixList pre.toList s.toList

/-- Drop the first n characters of a string. -/
def strDrop (s : String) (n : Nat) : String := String.mk (s.toList.drop n)

/-- Space test of the Go unicode.IsSpace for the ASCII range used by
strings.TrimSpace. -/
def isTrimSpace (c : Char) : Bool :=
  c == ' ' || c == Char.ofNat 9 || c == Char.ofNat 10 || c == Char.ofNat 11 ||
    c == Char.ofNat 12 || c == Char.ofNat 13

/-- Trim whitespace from both ends (strings.TrimSpace). -/
def strTrim (s : String) : String :=
  String.mk (((s.toList.dropWhile isTrimSpace).reverse.dropWhile isTrimSpace).reverse)

/-- Split the input at the first occurrence of a separator character
(strings.Index followed by slicing); none when the separator is absent. -/
def breakAtChar (sep : Char) : List Char → Option (List Char × List Char)
  | [] => none
  | c :: cs =>
    if c == sep then some ([], cs)
    else (breakAtChar sep cs).map (fun pr => (c :: pr.1, pr.2))

/-- The standard base64 alphabet. -/
def base64Table : List Char :=
  "ABCDEFGHIJKLMNOPQRSTUVWXYZabcdefghijklmnopqrstuvwxyz0123456789+/".toList

/-- Digit of the base64 alphabet. -/
def b64digit (n : Nat) : Char := base64Table.getD n 'A'

/-- Index of a character in the base64 alphabet. -/
def b64valueAux : List Char → Nat → Char → Option Nat
  | [], _, _ => none
  | d :: ds, i, c => if d == c then some i else b64valueAux ds (i + 1) c

/-- Decode a single base64 character. -/
def b64value (c : Char) : Option Nat := b64valueAux base64Table 0 c

/-- Standard (padded) base64 encoding of a byte list, as performed by the Go
standard library encoder used when re-encoding fetched images. -/
def base64EncodeAux : List Nat → List Char
  | [] => []
  | [a] => [b64digit (a / 4), b64digit (a % 4 * 16), '=', '=']
  | [a, b] => [b64digit (a / 4), b64digit (a % 4 * 16 + b / 16), b64digit (b % 16 * 4), '=']
  | a :: b :: c :: rest =>
    b64digit (a / 4) :: b64digit (a % 4 * 16 + b / 16) ::
      b64digit (b % 16 * 4 + c / 64) :: b64digit (c % 64) :: base64EncodeAux rest

/-- Base64 encoding, producing a string. -/
def base64Encode (bs : List Nat) : String := String.mk (base64EncodeAux bs)

/-- Standard (padded) base64 decoding, as performed by the Go standard library
decoder used on data URLs. -/
def base64DecodeAux : List Char → Option (List Nat)
  | [] => some []
  | c1 :: c2 :: c3 :: c4 :: rest => do
    let v1 ← b64value c1
    let v2 ← b64value c2
    if c3 == '=' then
      if c4 == '=' && rest.isEmpty then some [v1 * 4 + v2 / 16] else none
    else do
      let v3 ← b64value c3
      if c4 == '=' then
        if rest.isEmpty then some [v1 * 4 + v2 / 16, v2 % 16 * 16 + v3 / 4] else none
      else do
        let v4 ← b64value c4
        let tl ← base64DecodeAux rest
        some ((v1 * 4 + v2 / 16) :: (v2 % 16 * 16 + v3 / 4) :: (v3 % 4 * 64 + v4) :: tl)
  | _ => none

/-- Base64 decoding of a string to a byte list. -/
def base64Decode (s : String) : Option (List Nat) := base64DecodeAux s.toList

namespace Juma

/-- Catalog entry for a supported Juma model (struct JumaModel). -/
structure JumaModel where
  id : String
  name : String
  modelAlias : String
  provider : String
  vendorConnectionID : String
deriving DecidableEq

/-- The hardcoded list of supported Juma models (var jumaModels). -/
def jumaModels : List JumaModel :=
  [⟨"401637fa-151b-41f5-aa36-5416ad1314fb", "GPT-5.1", "juma-gpt-5.1", "OpenAI",
    "f5275937-68f8-4bfe-b195-c48f2155263b"⟩,
   ⟨"790cee03-6d71-4b6a-bf86-7781c9592028", "Claude Opus 4.5", "juma-claude-opus-4.5", "Anthropic",
    "f958317e-9359-42cc-8c45-4ed306bf5f65"⟩,
   ⟨"c073a0c0-e3d0-4e0b-b36c-29584b674125", "Gemini 3 Pro", "juma-gemini-3-pro", "Google",
    "2eb35c4f-3afe-4d12-b953-70b5c8bb643e"⟩,
   ⟨"c073a0c0-e3d0-4e0b-b36c-29584b674125", "Nanobanana Pro", "juma-nanobanana-pro", "Google",
    "2eb35c4f-3afe-4d12-b953-70b5c8bb643e"⟩]

/-- Case-insensitive string comparison (strings.EqualFold, restricted to the
simple case folding realised by lower-casing). -/
def eqFold (a b : String) : Bool :=
  a.toList.map Char.toLower == b.toList.map Char.toLower

/-- Find a Juma model by its alias (getJumaModelByAlias). -/
def getJumaModelByAlias (al : String) : Option JumaModel :=
  jumaModels.find? (fun m => eqFold m.modelAlias al)

/-- Auth record as seen by the executor: the opaque attribute map.  A missing
key yields the empty string, as a Go map read does. -/
structure JumaAuth where
  attributes : String → String

/-- Extract session token, workspace id and vendor connection id from the auth
record (jumaCredentials).  A nil auth or nil attribute map is the none case. -/
def jumaCredentials : Option JumaAuth → String × String × String
  | none => ("", "", "")
  | some a =>
    (strTrim (a.attributes "session_token"),
     strTrim (a.attributes "workspace_id"),
     strTrim (a.attributes "vendor_connection_id"))

/-- Whether an alias names the Nanobanana Pro model (isNanobananaModel). -/
def isNanobananaModel (modelAlias : String) : Bool :=
  modelAlias == "juma-nanobanana-pro"

/-- Quote characters accepted by the generated-image tag pattern. -/
def isQuoteChar (c : Char) : Bool := c == dQuote || c == sQuote

/-- Literal head of the generated-image tag pattern. -/
def litGenImage : List Char := "<generated-image".toList

/-- Literal url attribute marker of the generated-image tag pattern. -/
def litUrlEq : List Char := "url=".toList

/-- Final step of the tag pattern: optional spaces, an optional slash, and
the closing bracket; yields the captured url and the remaining input. -/
def matchClose (u : List Char) (r6 : List Char) : Option (String × List Char) :=
  match r6.dropWhile goSpace with
  | [] => none
  | c :: r8 =>
    if c == '/' then
      match r8 with
      | [] => none
      | c2 :: r9 => if c2 == '>' then some (String.mk u, r9) else none
    else if c == '>' then some (String.mk u, r8)
    else none

/-- Url attribute body: one or more non-quote characters up to a closing
quote of either style. -/
def matchUrlBody (r4 : List Char) : Option (String × List Char) :=
  let u := r4.takeWhile (fun c => !(isQuoteChar c))
  match r4.dropWhile (fun c => !(isQuoteChar c)) with
  | [] => none
  | q2 :: r6 =>
    if u.isEmpty then none
    else if isQuoteChar q2 then matchClose u r6
    else none

/-- Opening quote of either style before the url body. -/
def matchQuote : List Char → Option (String × List Char)
  | [] => none
  | q1 :: r4 => if isQuoteChar q1 then matchUrlBody r4 else none

/-- The url attribute marker followed by the quoted url. -/
def matchUrlEq (r2 : List Char) : Option (String × List Char) :=
  match dropLit litUrlEq r2 with
  | none => none
  | some r3 => matchQuote r3

/-- One or more spaces after the tag name, then the url attribute. -/
def matchAfterName (r1 : List Char) : Option (String × List Char) :=
  if (r1.takeWhile goSpace).isEmpty then none
  else matchUrlEq (r1.dropWhile goSpace)

/-- Match the regular expression for a generated-image tag at the head of the
input: the literal tag name, one or more spaces, the url attribute with either
quote style, optional trailing spaces and slash, and the closing bracket.
Returns the captured url and the input following the match. -/
def matchGenImageTag (cs : List Char) : Option (String × List Char) :=
  match dropLit litGenImage cs with
  | none => none
  | some r1 => matchAfterName r1

/-- An inline generated-image tag with the given quote character, optional
trailing slash, and url. -/
def genTag (q : Char) (sl : Bool) (u : String) : String :=
  "<generated-image url=" ++ String.mk [q] ++ u ++ String.mk [q] ++
    (if sl then "/>" else ">")

/-- One rewriting pass over the text, replacing every occurrence of the
generated-image tag by markdown image syntax; the fuel argument dominates the
number of characters still to be inspected. -/
def transformAux : Nat → List Char → List Char
  | 0, cs => cs
  | _ + 1, [] => []
  | f + 1, c :: cs =>
    match matchGenImageTag (c :: cs) with
    | some (u, rest) =>
      "![Generated Image](".toList ++ u.toList ++ ')' :: transformAux f rest
    | none => c :: transformAux f cs

/-- Convert Juma generated-image tags to standard markdown image syntax
(transformGeneratedImageTags). -/
def transformGeneratedImageTags (content : String) : String :=
  String.mk (transformAux content.toList.length content.toList)

/-- Result of uploading an image to Juma (struct JumaImageUploadResult). -/
structure JumaImageUploadResult where
  ID : String
  KnowledgeItemID : String
  ImageURL : String
  Name : String
deriving DecidableEq

/-- Parse a data URL into its mime type and base64 payload (parseJumaDataURL):
everything between the scheme and the first comma is the metadata, whose first
semicolon-separated component is the mime type, defaulted when empty. -/
def parseJumaDataURL (dataURL : String) : Except String (String × String) :=
  if !strStartsWith dataURL "data:" then .error "not a data URL"
  else
    let rest := (strDrop dataURL 5).toList
    match breakAtChar ',' rest with
    | none => .error "invalid data URL format"
    | some (metadata, payload) =>
      let mime := String.mk (metadata.takeWhile (fun c => !(c == ';')))
      let mime := if mime == "" then "application/octet-stream" else mime
      .ok (mime, String.mk payload)

/-- File extension derived from the mime type (getJumaExtensionFromMimeType). -/
def getJumaExtensionFromMimeType (mimeType : String) : String :=
  if mimeType == "image/jpeg" || mimeType == "image/jpg" then ".jpg"
  else if mimeType == "image/png" then ".png"
  else if mimeType == "image/gif" then ".gif"
  else if mimeType == "image/webp" then ".webp"
  else ".png"

/-- Derive the knowledge item id from the negotiated asset
(extractJumaKnowledgeItemID).  The asset JSON is modelled by an abstract path
lookup returning the empty string for absent fields, as the gjson String
accessor does. -/
def extractJumaKnowledgeItemID (get : String → String) (imageID : String) : String :=
  if get "image.type" == "Knowledge" && imageID != "" then imageID
  else
    let candidates :=
      [get "knowledgeItem.id", get "knowledgeItemId", get "knowledgeItemID",
       get "knowledge.id", get "image.knowledgeItemId", get "image.knowledgeItem.id",
       get "knowledgeItem.knowledgeItemId"]
    match candidates.find? (fun c => strTrim c != "") with
    | some c => strTrim c
    | none => if imageID != "" then imageID else ""

/-- One line of the line-delimited negotiation response.  The raw text is kept
for the marker containment test; the parsed payload under the json.2.0.0 path
is modelled by an existence flag, a path lookup and the signed form fields. -/
structure JumaNegotiationLine where
  raw : String
  hasImageData : Bool
  get : String → String
  fields : List (String × String)

/-- Presigned upload target parsed from the negotiation response
(struct jumaPresignedData). -/
structure jumaPresignedData where
  ImageID : String
  KnowledgeItemID : String
  ImageURL : String
  PresignedURL : String
  Fields : List (String × String)

/-- Scan the negotiation response lines for the first line holding the
presigned payload, skipping lines without the marker, without the nested
object, or with an empty image or presigned url. -/
def findPresignedData : List JumaNegotiationLine → Option jumaPresignedData
  | [] => none
  | l :: ls =>
    if strContains l.raw "presignedUrl" then
      if !l.hasImageData then findPresignedData ls
      else
        let imageID := l.get "image.id"
        let imageURL := l.get "image.imageUrl"
        let presignedURL := l.get "presignedUrl"
        let knowledgeItemID := extractJumaKnowledgeItemID l.get imageID
        if imageURL == "" || presignedURL == "" then findPresignedData ls
        else some ⟨imageID, knowledgeItemID, imageURL, presignedURL, l.fields⟩
    else findPresignedData ls

/-- HTTP environment of one asset upload: status and body of the negotiation
call, status of the storage transfer. -/
structure JumaUploadHTTPEnv where
  negStatus : Nat
  negLines : List JumaNegotiationLine
  s3Status : Nat

/-- Negotiation step (getJumaPresignedURL): non-200 status is an error, then
the response lines are scanned for the presigned payload. -/
def getJumaPresignedURL (env : JumaUploadHTTPEnv) (_sessionToken _workspaceID _filename
    _mimeType : String) (_imageSize : Nat) : Except String jumaPresignedData :=
  if env.negStatus != 200 then .error "presigned URL request failed"
  else
    match findPresignedData env.negLines with
    | none => .error "failed to parse presigned URL response"
    | some d => .ok d

/-- Transfer step (uploadToJumaS3): only the four accepted success statuses
complete the multipart upload. -/
def uploadToJumaS3 (env : JumaUploadHTTPEnv) : Except String Unit :=
  if env.s3Status == 200 || env.s3Status == 204 || env.s3Status == 201 || env.s3Status == 202
  then .ok () else .error "S3 upload failed"

/-- Full three-step upload of a data URL image (UploadImageToJuma): parse and
decode the data URL, negotiate a presigned target, transfer the bytes, and
return the asset identifiers.  The knowledge item id is passed through
unchanged, possibly empty.  The now argument determinises the generated
filename. -/
def UploadImageToJuma (env : JumaUploadHTTPEnv) (now : Nat)
    (sessionToken workspaceID imageDataURL : String) :
    Except String JumaImageUploadResult :=
  if !strStartsWith imageDataURL "data:" then .error "not a data URL"
  else
    match parseJumaDataURL imageDataURL with
    | .error e => .error ("failed to parse data URL: " ++ e)
    | .ok (mimeType, base64Data) =>
      match base64Decode base64Data with
      | none => .error "failed to decode base64"
      | some imageData =>
        let ext := getJumaExtensionFromMimeType mimeType
        let filename := "upload_" ++ toString now ++ ext
        match getJumaPresignedURL env sessionToken workspaceID filename mimeType
            imageData.length with
        | .error e => .error ("failed to get presigned URL: " ++ e)
        | .ok presignedData =>
          match uploadToJumaS3 env with
          | .error e => .error ("failed to upload to S3: " ++ e)
          | .ok _ =>
            .ok ⟨presignedData.ImageID, presignedData.KnowledgeItemID,
                 presignedData.ImageURL, filename⟩

/-- Size cap for remote image fetches (jumaMaxRemoteImageBytes, 10 MiB). -/
def jumaMaxRemoteImageBytes : Nat := 10 * 1048576

/-- Abstract HTTP response of a remote image fetch: status code, declared
content type (empty when the header is absent) and body bytes. -/
structure HTTPImageResponse where
  status : Nat
  contentType : String
  body : List Nat

/-- Download a remote image and convert it to a data URL
(fetchImageDataURLFromHTTP): the status must be 200, the body must not exceed
the byte cap, the content type (sniffed by the detect function when the header
is empty) must be an image type, and the body is then re-encoded as a base64
data URL carrying that content type. -/
def fetchImageDataURLFromHTTP (detect : List Nat → String) (resp : HTTPImageResponse)
    (maxBytes : Nat) : Except String String :=
  if resp.status != 200 then .error ("unexpected status " ++ toString resp.status)
  else if resp.body.length > maxBytes then .error "image size exceeds limit"
  else
    let contentType := if resp.contentType == "" then detect resp.body else resp.contentType
    if !strStartsWith contentType "image/" then
      .error ("content-type is not image: " ++ contentType)
    else .ok ("data:" ++ contentType ++ ";base64," ++ base64Encode resp.body)

/-- One part of a canonical message content array.  The four url fields model
the gjson lookups tried in order by the translator (image_url.url, image_url,
image.url, url); absent fields are the empty string. -/
structure CanonPart where
  ptype : String
  text : String
  imageUrlUrl : String
  imageUrlStr : String
  imageDotUrl : String
  urlField : String
deriving DecidableEq

/-- Canonical message content: either a plain string or an array of parts. -/
inductive CanonContent where
  | str (s : String)
  | arr (parts : List CanonPart)
deriving DecidableEq

/-- A canonical chat message. -/
structure CanonMessage where
  role : String
  content : CanonContent
deriving DecidableEq

/-- The canonical request payload read through gjson: model alias and message
list. -/
structure CanonPayload where
  model : String
  messages : List CanonMessage
deriving DecidableEq

/-- A text-only part, as a canonical request would carry it. -/
def mkTextPart (t : String) : CanonPart := ⟨"text", t, "", "", "", ""⟩

/-- An image part carrying its url in the image_url.url field. -/
def mkImagePart (u : String) : CanonPart := ⟨"image_url", "", u, "", "", ""⟩

/-- Resolve the image url of a part by the ordered fallback chain of field
names used by the translator. -/
def resolveImageURL (p : CanonPart) : String :=
  let u := p.imageUrlUrl
  let u := if u == "" then p.imageUrlStr else u
  let u := if u == "" then p.imageDotUrl else u
  if u == "" then p.urlField else u

/-- Network side effects observable during request translation and execution:
a remote image fetch, an asset upload (whose first step is the negotiation
request), and the chat POST itself. -/
inductive NetEffect where
  | fetch (url : String)
  | uploadAttempt (dataURL : String)
  | chatPost
deriving DecidableEq

/-- Oracles for the two side channels used during translation: the three-step
asset upload of a data URL (none models a failed upload) and the remote image
fetch. -/
structure ImgOracle where
  upload : String → Option JumaImageUploadResult
  fetchRemote : String → Except String String

/-- An uploaded image as attached to a message (struct JumaUploadedImage). -/
structure JumaUploadedImage where
  ID : String
  ImageURL : String
  Name : String
deriving DecidableEq

/-- An entry of the thread-level knowledge list: the id/source string map the
translator emits. -/
structure KnowledgeEntry where
  id : String
  source : String
deriving DecidableEq

/-- A part of a Juma message (struct JumaMessagePart). -/
structure JumaMessagePart where
  ptype : String
  text : String
  imageUrl : String
  imageId : String
deriving DecidableEq

/-- A message in Juma format (struct JumaMessage).  The generated images and
uploaded files lists are always empty in the translator and are modelled as
string lists. -/
structure JumaMessage where
  id : String
  role : String
  parts : List JumaMessagePart
  content : String
  generatedImages : List String
  uploadedImages : List JumaUploadedImage
  uploadedFiles : List String
deriving DecidableEq

/-- Result of converting the canonical messages (struct JumaConversionResult). -/
structure JumaConversionResult where
  messages : List JumaMessage
  knowledgeItems : List KnowledgeEntry
  uploadedImages : List JumaUploadedImage
deriving DecidableEq

/-- The synthetic system prompt injected for the Nanobanana model. -/
def nanobananaSystemText : String :=
  "You are an expert image editing assistant. When the user provides an image, you MUST use the 'ImageEdit' tool to modify it according to their instructions. Do not just describe the edit. Always output the tool call."

/-- Deterministic stand-in for the uuid generator. -/
def freshID (n : Nat) : String := "uuid-" ++ toString n

/-- Accumulator of the per-message part loop: concatenated text, images
uploaded for this message, and the network effects performed. -/
structure PartAcc where
  text : String
  msgImages : List JumaUploadedImage
  trace : List NetEffect
deriving DecidableEq

/-- Upload one data URL image (the handleDataURLUpload closure): nothing
happens without session token and workspace id; otherwise the three-step
upload is attempted, and its result is kept only when both the asset id and
the url are non-empty. -/
def handleDataURLUpload (o : ImgOracle) (sessionToken workspaceID : String)
    (acc : PartAcc) (dataURL : String) : PartAcc :=
  if sessionToken == "" || workspaceID == "" then acc
  else
    let acc1 := { acc with trace := acc.trace ++ [NetEffect.uploadAttempt dataURL] }
    match o.upload dataURL with
    | none => acc1
    | some r =>
      if r.ID != "" && r.ImageURL != "" then
        { acc1 with msgImages := acc1.msgImages ++ [⟨r.ID, r.ImageURL, r.Name⟩] }
      else acc1

/-- Process one content part: text parts are concatenated, image parts are
resolved to a url and routed to the upload pipeline, remote urls being fetched
and re-encoded first; unsupported schemes and other part types are skipped. -/
def processPart (o : ImgOracle) (sessionToken workspaceID : String)
    (acc : PartAcc) (p : CanonPart) : PartAcc :=
  if p.ptype == "text" then { acc with text := acc.text ++ p.text }
  else if p.ptype == "image_url" || p.ptype == "input_image" || p.ptype == "image" then
    let url := resolveImageURL p
    if url == "" then acc
    else if strStartsWith url "data:" then handleDataURLUpload o sessionToken workspaceID acc url
    else if strStartsWith url "http://" || strStartsWith url "https://" then
      let acc1 := { acc with trace := acc.trace ++ [NetEffect.fetch url] }
      match o.fetchRemote url with
      | .error _ => acc1
      | .ok dataURL => handleDataURLUpload o sessionToken workspaceID acc1 dataURL
    else acc
  else acc

/-- Convert one canonical message to Juma format, returning the message, the
images uploaded for it and the effects performed. -/
def convertMessage (o : ImgOracle) (sessionToken workspaceID : String) (uid : Nat)
    (m : CanonMessage) : JumaMessage × List JumaUploadedImage × List NetEffect :=
  let acc :=
    match m.content with
    | .str s => ({ text := s, msgImages := [], trace := [] } : PartAcc)
    | .arr parts => parts.foldl (processPart o sessionToken workspaceID) ⟨"", [], []⟩
  let parts : List JumaMessagePart :=
    if acc.text == "" then [] else [⟨"text", acc.text, "", ""⟩]
  (⟨freshID uid, m.role, parts, acc.text, [], acc.msgImages, []⟩, acc.msgImages, acc.trace)

/-- Convert the canonical message list, skipping caller-supplied system
messages when the Nanobanana prompt was injected, and collecting all uploaded
images and effects in order. -/
def convertLoop (o : ImgOracle) (sessionToken workspaceID model : String) :
    List CanonMessage → Nat → List JumaMessage × List JumaUploadedImage × List NetEffect
  | [], _ => ([], [], [])
  | m :: ms, uid =>
    if m.role == "system" && isNanobananaModel model then
      convertLoop o sessionToken workspaceID model ms uid
    else
      let one := convertMessage o sessionToken workspaceID uid m
      let rest := convertLoop o sessionToken workspaceID model ms (uid + 1)
      (one.1 :: rest.1, one.2.1 ++ rest.2.1, one.2.2 ++ rest.2.2)

/-- Build the thread-level knowledge list from the uploaded images: one entry
per image with a non-empty asset id, carrying that id and the fixed source. -/
def mkKnowledgeItems (imgs : List JumaUploadedImage) : List KnowledgeEntry :=
  (imgs.filter (fun i => i.ID != "")).map (fun i => ⟨i.ID, "AttachedNewContextSnippet"⟩)

/-- The synthetic leading system message injected for the Nanobanana model. -/
def nanobananaSystemMessage : JumaMessage :=
  ⟨freshID 0, "system", [⟨"text", nanobananaSystemText, "", ""⟩], nanobananaSystemText,
   [], [], []⟩

/-- Convert the canonical request payload to Juma format
(convertToJumaMessages), also returning the trace of network effects. -/
def convertToJumaMessages (o : ImgOracle) (payload : CanonPayload)
    (sessionToken workspaceID : String) : JumaConversionResult × List NetEffect :=
  if isNanobananaModel payload.model then
    let rest := convertLoop o sessionToken workspaceID payload.model payload.messages 1
    (⟨nanobananaSystemMessage :: rest.1, mkKnowledgeItems rest.2.1, rest.2.1⟩, rest.2.2)
  else
    let rest := convertLoop o sessionToken workspaceID payload.model payload.messages 0
    (⟨rest.1, mkKnowledgeItems rest.2.1, rest.2.1⟩, rest.2.2)

/-- Generic JSON value used for the tool parameter schema literal. -/
inductive JVal where
  | s (v : String)
  | arr (items : List JVal)
  | obj (fields : List (String × JVal))

/-- Field lookup in a JSON object value. -/
def jvalField : JVal → String → Option JVal
  | .obj fs, k => (fs.find? (fun kv => kv.1 == k)).map (fun kv => kv.2)
  | _, _ => none

/-- Tool function details (struct JumaToolFunction). -/
structure JumaToolFunction where
  name : String
  description : String
  parameters : JVal

/-- Tool definition (struct JumaTool). -/
structure JumaTool where
  ttype : String
  func : JumaToolFunction

/-- Parameter schema of the ImageEdit tool, as the literal in the source. -/
def jumaImageEditToolParams : JVal :=
  .obj
    [("type", .s "object"),
     ("properties", .obj
       [("prompt", .obj
          [("type", .s "string"),
           ("description", .s "The prompt describing the image to generate or the edit to make")]),
        ("imageUrls", .obj
          [("type", .s "array"),
           ("items", .obj [("type", .s "string")]),
           ("description", .s "URLs of images to edit (optional for generation)")]),
        ("orientation", .obj
          [("type", .s "string"),
           ("enum", .arr [.s "vertical", .s "horizontal", .s "square"]),
           ("description", .s "The orientation of the output image")])]),
     ("required", .arr [.s "prompt"])]

/-- The ImageEdit tool declaration injected for the Nanobanana model. -/
def jumaImageEditTool : JumaTool :=
  ⟨"function",
   ⟨"ImageEdit",
    "Edit or generate images based on text prompts. Use this tool when the user asks to generate, edit, or modify images.",
    jumaImageEditToolParams⟩⟩

/-- The request body for the Juma chat API (struct JumaRequest). -/
structure JumaRequest where
  messages : List JumaMessage
  modelID : String
  threadID : String
  workspaceID : String
  promptUsages : List String
  currentFolderID : Option String
  vendorConnectionID : String
  isNewThread : Bool
  parentFolderID : Option String
  knowledgeItems : List KnowledgeEntry
  tools : List JumaTool

/-- Build the Juma chat request from the conversion result, adding the
ImageEdit tool when the target alias is the Nanobanana model. -/
def buildJumaRequest (conv : JumaConversionResult) (modelID workspaceID
    vendorConnectionID reqModel threadID : String) : JumaRequest :=
  let base : JumaRequest :=
    ⟨conv.messages, modelID, threadID, workspaceID, [], none, vendorConnectionID,
     true, none, conv.knowledgeItems, []⟩
  if isNanobananaModel reqModel then { base with tools := [jumaImageEditTool] } else base

/-- Upstream response of the chat call: status code, error body, the SSE body
lines actually scanned, and the scanner error observed after them. -/
structure ChatEnv where
  status : Nat
  errBody : String
  lines : List String
  scanErr : Option String

/-- Errors returned by the executor (struct statusErr, plus the scanner
read error propagated as-is). -/
inductive ExecError where
  | statusErr (code : Nat) (msg : String)
  | scanError (msg : String)
deriving DecidableEq

/-- Canonical response synthesized by the executor: a chat completion carrying
the assistant content, or an image generation response carrying the url. -/
inductive ExecResult where
  | chat (model content : String)
  | image (url : String)
deriving DecidableEq

/-- Build the OpenAI-style chat completion response
(buildOpenAIChatResponse): the content passes through the image tag rewrite. -/
def buildOpenAIChatResponse (model content : String) : ExecResult :=
  .chat model (transformGeneratedImageTags content)

/-- Build the OpenAI-style image generation response
(buildOpenAIImageResponse). -/
def buildOpenAIImageResponse (imageURL : String) : ExecResult := .image imageURL

/-- Buffered SSE scan of the Execute path: accumulate text deltas, remember
the last generated image url, ignore lines without the data marker and events
of other types, stop at the terminator. -/
def bufLoop (gj : String → String → String) :
    List String → String → String → String × String
  | [], acc, img => (acc, img)
  | l :: ls, acc, img =>
    if !strStartsWith l "data: " then bufLoop gj ls acc img
    else
      let d := strDrop l 6
      if d == "[DONE]" then (acc, img)
      else
        let t := gj d "type"
        if t == "text-delta" then bufLoop gj ls (acc ++ gj d "delta") img
        else if t == "tool-output-available" then
          let u := gj d "output.imageUrl"
          if u != "" then bufLoop gj ls acc u else bufLoop gj ls acc img
        else bufLoop gj ls acc img

/-- A canonical stream chunk (the payload built by buildOpenAIStreamChunk):
model, choice index and delta content. -/
structure StreamChunk where
  model : String
  index : Nat
  content : String
deriving DecidableEq

/-- Build an OpenAI-style SSE chunk (buildOpenAIStreamChunk). -/
def buildOpenAIStreamChunk (model delta : String) (index : Nat) : StreamChunk :=
  ⟨model, index, delta⟩

/-- Streaming SSE scan of the ExecuteStream goroutine: emit one chunk per
text delta (rewritten) and per generated image url, with an index incremented
exactly when a chunk is emitted; other lines and events emit nothing. -/
def streamLoop (gj : String → String → String) (model : String) :
    List String → Nat → List StreamChunk
  | [], _ => []
  | l :: ls, idx =>
    if !strStartsWith l "data: " then streamLoop gj model ls idx
    else
      let d := strDrop l 6
      if d == "[DONE]" then []
      else
        let t := gj d "type"
        if t == "text-delta" then
          buildOpenAIStreamChunk model (transformGeneratedImageTags (gj d "delta")) idx ::
            streamLoop gj model ls (idx + 1)
        else if t == "tool-output-available" then
          let u := gj d "output.imageUrl"
          if u != "" then
            buildOpenAIStreamChunk model ("\n\n![Generated Image](" ++ u ++ ")") idx ::
              streamLoop gj model ls (idx + 1)
          else streamLoop gj model ls idx
        else streamLoop gj model ls idx

/-- The buffered Execute path: credential check, model lookup, request
translation with asset uploads, the chat POST, the buffered SSE read, and
response synthesis.  Returns the result and the trace of network effects. -/
def JumaExecute (o : ImgOracle) (chat : ChatEnv) (gj : String → String → String)
    (auth : Option JumaAuth) (reqModel : String) (payload : CanonPayload) :
    Except ExecError ExecResult × List NetEffect :=
  let creds := jumaCredentials auth
  if creds.1 == "" then
    (.error (.statusErr 401 "missing Juma session token"), [])
  else
    match getJumaModelByAlias reqModel with
    | none => (.error (.statusErr 400 ("unknown Juma model: " ++ reqModel)), [])
    | some model =>
      let vc := if creds.2.2 == "" then model.vendorConnectionID else creds.2.2
      let cv := convertToJumaMessages o payload creds.1 creds.2.1
      let _jreq := buildJumaRequest cv.1 model.id creds.2.1 vc reqModel "thread"
      let tr := cv.2 ++ [NetEffect.chatPost]
      if chat.status < 200 || 300 ≤ chat.status then
        (.error (.statusErr chat.status chat.errBody), tr)
      else
        let pr := bufLoop gj chat.lines "" ""
        let content :=
          if pr.2 != "" then
            (if pr.1 != "" then pr.1 ++ "\n\n" else pr.1) ++
              ("![Generated Image](" ++ pr.2 ++ ")")
          else pr.1
        match chat.scanErr with
        | some e => (.error (.scanError e), tr)
        | none =>
          if isNanobananaModel reqModel && pr.2 != "" then
            (.ok (buildOpenAIImageResponse pr.2), tr)
          else (.ok (buildOpenAIChatResponse reqModel content), tr)

/-- The streaming ExecuteStream path: the same validation and translation as
Execute, a synchronous failure on a non-2xx status, then the stream of chunks
produced by the background scan, followed by the scanner error when one
occurs.  Returns the stream and the trace of network effects. -/
def JumaExecuteStream (o : ImgOracle) (chat : ChatEnv) (gj : String → String → String)
    (auth : Option JumaAuth) (reqModel : String) (payload : CanonPayload) :
    Except ExecError (List StreamChunk × Option String) × List NetEffect :=
  let creds := jumaCredentials auth
  if creds.1 == "" then
    (.error (.statusErr 401 "missing Juma session token"), [])
  else
    match getJumaModelByAlias reqModel with
    | none => (.error (.statusErr 400 ("unknown Juma model: " ++ reqModel)), [])
    | some model =>
      let vc := if creds.2.2 == "" then model.vendorConnectionID else creds.2.2
      let cv := convertToJumaMessages o payload creds.1 creds.2.1
      let _jreq := buildJumaRequest cv.1 model.id creds.2.1 vc reqModel "thread"
      let tr := cv.2 ++ [NetEffect.chatPost]
      if chat.status < 200 || 300 ≤ chat.status then
        (.error (.statusErr chat.status chat.errBody), tr)
      else
        (.ok (streamLoop gj reqModel chat.lines 0, chat.scanErr), tr)

/-! ### Concrete fixtures used by witnesses and counterexamples -/

/-- Oracle whose uploads and fetches all fail. -/
def oFailAll : ImgOracle := ⟨fun _ => none, fun _ => .error "unreachable"⟩

/-- JSON lookup oracle returning nothing. -/
def gjNull : String → String → String := fun _ _ => ""

/-- Minimal successful chat environment with an empty body. -/
def chatOK : ChatEnv := ⟨200, "", [], none⟩

/-- Auth record carrying only a session token. -/
def authTok : JumaAuth := ⟨fun k => if k == "session_token" then "tok" else ""⟩

/-- JSON lookup oracle for two text-delta events. -/
def gjHello : String → String → String := fun d p =>
  if d == "evt-hello" then
    (if p == "type" then "text-delta" else if p == "delta" then "Hello" else "")
  else if d == "evt-world" then
    (if p == "type" then "text-delta" else if p == "delta" then " world" else "")
  else ""

/-- Chat environment delivering the two text-delta events and the terminator. -/
def chatHello : ChatEnv :=
  ⟨200, "", ["data: evt-hello", "data: evt-world", "data: [DONE]"], none⟩

/-- A data URL for a three-byte png payload. -/
def dataURLPng : String := "data:image/png;base64,AAAA"

/-- Negotiation response line whose asset is not of the Knowledge type and
which carries an explicit alternate correlation-identifier field. -/
def negLineSnippet : JumaNegotiationLine :=
  ⟨"has presignedUrl inside", true,
   (fun p =>
     if p == "image.id" then "img-1"
     else if p == "image.imageUrl" then "https://u/1.png"
     else if p == "presignedUrl" then "https://s3/post"
     else if p == "image.type" then "Snippet"
     else if p == "knowledgeItem.id" then "k-9"
     else ""), []⟩

/-- Upload environment built from that negotiation line. -/
def uploadEnvSnippet : JumaUploadHTTPEnv := ⟨200, [negLineSnippet], 204⟩

/-- Oracle whose data URL uploads run the full three-step pipeline against
the snippet negotiation response. -/
def oSnippet : ImgOracle :=
  ⟨fun d => (UploadImageToJuma uploadEnvSnippet 0 "tok" "ws" d).toOption,
   fun _ => .error "no remote"⟩

/-- Canonical payload with one user message holding one text part and one
data URL image part. -/
def payloadOneImage : CanonPayload :=
  ⟨"juma-gpt-5.1", [⟨"user", .arr [mkTextPart "look", mkImagePart dataURLPng]⟩]⟩

/-- Payload of a single user message: text parts, one image part, more text
parts. -/
def singleImagePayload (mdl : String) (ts1 ts2 : List String) (u : String) : CanonPayload :=
  ⟨mdl, [⟨"user", .arr (ts1.map mkTextPart ++ mkImagePart u :: ts2.map mkTextPart)⟩]⟩

/-- Negotiation lookup with a non-Knowledge asset type and no alternate
correlation-identifier field at all. -/
def jumaGetSnippetOnly : String → String := fun p =>
  if p == "image.type" then "Snippet" else ""

/-- JSON lookup oracle for one text-delta event followed by one unrecognized
event. -/
def gjMixed : String → String → String := fun d p =>
  if d == "evt-a" then
    (if p == "type" then "text-delta" else if p == "delta" then "A" else "")
  else if d == "evt-odd" then (if p == "type" then "something-else" else "")
  else ""

/-- A remote fetch response carrying an html page. -/
def respHTML : HTTPImageResponse := ⟨200, "text/html", [60, 104, 62]⟩

/-- A remote fetch response carrying a small png. -/
def respPNG : HTTPImageResponse := ⟨200, "image/png", [0, 0, 0]⟩

/-- Content sniffing stand-in used by witnesses. -/
def detectNull : List Nat → String := fun _ => "application/octet-stream"

end Juma

end CLIProxy

deriving instance DecidableEq for Except

namespace CLIProxy

namespace Juma

/-- C2: at a negotiation response whose asset type is not Knowledge and which
carries no alternate correlation-identifier field under any of the known
names, the extraction returns the raw asset identifier instead of the
empty value the specification requires (the fallback the source's own
comment forbids). -/
theorem C2_extract_falls_back_to_raw_asset_id :
    extractJumaKnowledgeItemID jumaGetSnippetOnly "A1" = "A1"
    ∧ jumaGetSnippetOnly "image.type" ≠ "Knowledge"
    ∧ jumaGetSnippetOnly "knowledgeItem.id" = ""
    ∧ jumaGetSnippetOnly "knowledgeItemId" = ""
    ∧ jumaGetSnippetOnly "knowledgeItemID" = ""
    ∧ jumaGetSnippetOnly "knowledge.id" = ""
    ∧ jumaGetSnippetOnly "image.knowledgeItemId" = ""
    ∧ jumaGetSnippetOnly "image.knowledgeItem.id" = ""
    ∧ jumaGetSnippetOnly "knowledgeItem.knowledgeItemId" = "" := by
  refine ⟨by decide, by decide, ?_, ?_, ?_, ?_, ?_, ?_, ?_⟩ <;> decide

/-- C3: when the resolved credential has no session token, both execution
paths return the 401 error before any network effect: the trace is empty, so
no chat request, image fetch or asset upload happens. -/
theorem C3_missing_session_token_unauthorized
    (o : ImgOracle) (chat : ChatEnv) (gj : String → String → String)
    (auth : Option JumaAuth) (reqModel : String) (payload : CanonPayload)
    (h : (jumaCredentials auth).1 = "") :
    JumaExecute o chat gj auth reqModel payload
      = (.error (.statusErr 401 "missing Juma session token"), [])
    ∧ JumaExecuteStream o chat gj auth reqModel payload
      = (.error (.statusErr 401 "missing Juma session token"), []) := by
  constructor <;> simp [JumaExecute, JumaExecuteStream, h]

/-- C3 witness: a nil auth record is rejected with 401 and an empty trace by
both paths. -/
theorem C3_witness :
    JumaExecute oFailAll chatOK gjNull none "juma-gpt-5.1" ⟨"juma-gpt-5.1", []⟩
      = (.error (.statusErr 401 "missing Juma session token"), [])
    ∧ JumaExecuteStream oFailAll chatOK gjNull none "juma-gpt-5.1" ⟨"juma-gpt-5.1", []⟩
      = (.error (.statusErr 401 "missing Juma session token"), []) :=
  C3_missing_session_token_unauthorized oFailAll chatOK gjNull none "juma-gpt-5.1"
    ⟨"juma-gpt-5.1", []⟩ rfl

/-- C4: with a session token present but a model alias outside the catalog,
both execution paths return the unknown-model 400 error with an empty trace:
no HTTP request, upload or chat call is issued. -/
theorem C4_unknown_model_rejected
    (o : ImgOracle) (chat : ChatEnv) (gj : String → String → String)
    (auth : Option JumaAuth) (reqModel : String) (payload : CanonPayload)
    (h1 : (jumaCredentials auth).1 ≠ "")
    (h2 : getJumaModelByAlias reqModel = none) :
    JumaExecute o chat gj auth reqModel payload
      = (.error (.statusErr 400 ("unknown Juma model: " ++ reqModel)), [])
    ∧ JumaExecuteStream o chat gj auth reqModel payload
      = (.error (.statusErr 400 ("unknown Juma model: " ++ reqModel)), []) := by
  constructor <;> simp [JumaExecute, JumaExecuteStream, h1, h2]

/-- C4 witness: the alias gpt-oops is rejected with 400 and an empty trace by
both paths. -/
theorem C4_witness :
    JumaExecute oFailAll chatOK gjNull (some authTok) "gpt-oops" ⟨"gpt-oops", []⟩
      = (.error (.statusErr 400 ("unknown Juma model: " ++ "gpt-oops")), [])
    ∧ JumaExecuteStream oFailAll chatOK gjNull (some authTok) "gpt-oops" ⟨"gpt-oops", []⟩
      = (.error (.statusErr 400 ("unknown Juma model: " ++ "gpt-oops")), []) :=
  C4_unknown_model_rejected oFailAll chatOK gjNull (some authTok) "gpt-oops"
    ⟨"gpt-oops", []⟩ (by decide) (by decide)

/-- A string with the data URL scheme is not empty. -/
theorem startsWith_data_ne_empty (s : String) (h : strStartsWith s "data:" = true) :
    (s == "") = false := by
  rcases eq_or_ne s "" with h0 | h0
  · subst h0; simp [strStartsWith, isPrefixList, dropLit] at h
  · simp [h0]

/-- Folding text-only parts changes neither the collected images nor the
trace. -/
theorem textParts_foldl_frame (o : ImgOracle) (st ws : String) :
    ∀ (ts : List String) (acc : PartAcc),
      ((ts.map mkTextPart).foldl (processPart o st ws) acc).msgImages = acc.msgImages
      ∧ ((ts.map mkTextPart).foldl (processPart o st ws) acc).trace = acc.trace := by
  intro ts
  induction ts with
  | nil => intro acc; exact ⟨rfl, rfl⟩
  | cons t ts ih =>
    intro acc
    have hstep : processPart o st ws acc (mkTextPart t) = { acc with text := acc.text ++ t } := by
      simp [processPart, mkTextPart]
    simpa [hstep] using ih { acc with text := acc.text ++ t }

/-- C1 counterexample: the upload succeeds with asset id img-1 and correlation
id k-9 (derived by the full three-step pipeline from a negotiation response
whose asset is not of the Knowledge type), yet the knowledge list carries the
asset id img-1 and holds no entry whose id is the correlation id k-9. -/
theorem C1_counterexample :
    oSnippet.upload dataURLPng
      = some ⟨"img-1", "k-9", "https://u/1.png", "upload_0.png"⟩
    ∧ (convertToJumaMessages oSnippet payloadOneImage "tok" "ws").1.knowledgeItems
      = [⟨"img-1", "AttachedNewContextSnippet"⟩]
    ∧ ((convertToJumaMessages oSnippet payloadOneImage "tok" "ws").1.knowledgeItems.filter
        (fun e => e.id == "k-9")) = [] := by
  refine ⟨by decide, by decide, by decide⟩

/-- C1 (amended): for a request with one data URL image part whose upload
succeeds with non-empty asset id and url, the attachment list of the message
and of the request reference the asset id and url, and the knowledge list
holds exactly one entry whose id is the asset id (the correlation id of the
upload result is not consulted); exactly one upload is attempted. -/
theorem C1_attachment_and_knowledge_use_asset_id
    (o : ImgOracle) (r : JumaImageUploadResult) (dataURL st ws mdl : String)
    (ts1 ts2 : List String)
    (hm : isNanobananaModel mdl = false)
    (hst : st ≠ "") (hws : ws ≠ "")
    (hd : strStartsWith dataURL "data:" = true)
    (hup : o.upload dataURL = some r)
    (hid : r.ID ≠ "") (hurl : r.ImageURL ≠ "") :
    (convertToJumaMessages o (singleImagePayload mdl ts1 ts2 dataURL) st ws).1.uploadedImages
      = [⟨r.ID, r.ImageURL, r.Name⟩]
    ∧ (convertToJumaMessages o (singleImagePayload mdl ts1 ts2 dataURL) st ws).1.knowledgeItems
      = [⟨r.ID, "AttachedNewContextSnippet"⟩]
    ∧ (convertToJumaMessages o (singleImagePayload mdl ts1 ts2 dataURL) st ws).1.messages.map
        JumaMessage.uploadedImages = [[⟨r.ID, r.ImageURL, r.Name⟩]]
    ∧ (convertToJumaMessages o (singleImagePayload mdl ts1 ts2 dataURL) st ws).2
      = [NetEffect.uploadAttempt dataURL] := by
  have hne : (dataURL == "") = false := startsWith_data_ne_empty dataURL hd
  have himgGen : ∀ acc : PartAcc, processPart o st ws acc (mkImagePart dataURL)
      = { acc with msgImages := acc.msgImages ++ [⟨r.ID, r.ImageURL, r.Name⟩],
                   trace := acc.trace ++ [NetEffect.uploadAttempt dataURL] } := by
    intro acc
    simp [processPart, mkImagePart, resolveImageURL, hne, hd, handleDataURLUpload,
      beq_iff_eq, hst, hws, hup, bne, hid, hurl]
  have hxfold :
      ((ts1.map mkTextPart ++ mkImagePart dataURL :: ts2.map mkTextPart).foldl
          (processPart o st ws) ⟨"", [], []⟩).msgImages = [⟨r.ID, r.ImageURL, r.Name⟩]
      ∧ ((ts1.map mkTextPart ++ mkImagePart dataURL :: ts2.map mkTextPart).foldl
          (processPart o st ws) ⟨"", [], []⟩).trace = [NetEffect.uploadAttempt dataURL] := by
    rw [List.foldl_append, List.foldl_cons, himgGen]
    obtain ⟨hA, hB⟩ := textParts_foldl_frame o st ws ts1 ⟨"", [], []⟩
    obtain ⟨hC, hD⟩ := textParts_foldl_frame o st ws ts2
      { (ts1.map mkTextPart).foldl (processPart o st ws) ⟨"", [], []⟩ with
        msgImages := ((ts1.map mkTextPart).foldl (processPart o st ws) ⟨"", [], []⟩).msgImages
          ++ [⟨r.ID, r.ImageURL, r.Name⟩],
        trace := ((ts1.map mkTextPart).foldl (processPart o st ws) ⟨"", [], []⟩).trace
          ++ [NetEffect.uploadAttempt dataURL] }
    rw [hC, hD]
    simp [hA, hB]
  obtain ⟨hx1, hx2⟩ := hxfold
  rw [List.foldl_append, List.foldl_cons] at hx1 hx2
  refine ⟨?_, ?_, ?_, ?_⟩ <;>
    simp [singleImagePayload, convertToJumaMessages, hm, convertLoop, convertMessage,
      mkKnowledgeItems, hx1, hx2, bne, hid]

/-- C1 witness for the amended statement: the concrete one-image request
through the full upload pipeline yields the img-1 attachment, the img-1
knowledge entry and one upload attempt. -/
theorem C1_witness :
    (convertToJumaMessages oSnippet
        (singleImagePayload "juma-gpt-5.1" ["look"] [] dataURLPng) "tok" "ws").1.uploadedImages
      = [⟨"img-1", "https://u/1.png", "upload_0.png"⟩]
    ∧ (convertToJumaMessages oSnippet
        (singleImagePayload "juma-gpt-5.1" ["look"] [] dataURLPng) "tok" "ws").1.knowledgeItems
      = [⟨"img-1", "AttachedNewContextSnippet"⟩]
    ∧ (convertToJumaMessages oSnippet
        (singleImagePayload "juma-gpt-5.1" ["look"] [] dataURLPng) "tok" "ws").1.messages.map
        JumaMessage.uploadedImages = [[⟨"img-1", "https://u/1.png", "upload_0.png"⟩]]
    ∧ (convertToJumaMessages oSnippet
        (singleImagePayload "juma-gpt-5.1" ["look"] [] dataURLPng) "tok" "ws").2
      = [NetEffect.uploadAttempt dataURLPng] :=
  C1_attachment_and_knowledge_use_asset_id oSnippet
    ⟨"img-1", "k-9", "https://u/1.png", "upload_0.png"⟩ dataURLPng "tok" "ws"
    "juma-gpt-5.1" ["look"] [] (by decide) (by decide) (by decide) (by decide)
    (by decide) (by decide) (by decide)

/-- The chunks emitted by the streaming scan from any starting index carry
consecutive indices from that index on. -/
theorem streamLoop_indices (gj : String → String → String) (model : String) :
    ∀ (lines : List String) (n : Nat),
      (streamLoop gj model lines n).map StreamChunk.index
        = List.range' n (streamLoop gj model lines n).length := by
  intro lines
  induction lines with
  | nil => intro n; simp [streamLoop]
  | cons l ls ih =>
    intro n
    cases h1 : strStartsWith l "data: " with
    | false => simpa [streamLoop, h1] using ih n
    | true =>
      cases h2 : strDrop l 6 == "[DONE]" with
      | true => simp [streamLoop, h1, h2]
      | false =>
        cases h3 : gj (strDrop l 6) "type" == "text-delta" with
        | true =>
          have := ih (n + 1)
          simp [streamLoop, h1, h2, h3, buildOpenAIStreamChunk, List.range'_succ, this]
        | false =>
          cases h4 : gj (strDrop l 6) "type" == "tool-output-available" with
          | false => simpa [streamLoop, h1, h2, h3, h4] using ih n
          | true =>
            cases h5 : gj (strDrop l 6) "output.imageUrl" == "" with
            | true => simpa [streamLoop, h1, h2, h3, h4, bne, h5] using ih n
            | false =>
              have := ih (n + 1)
              simp [streamLoop, h1, h2, h3, h4, bne, h5, buildOpenAIStreamChunk,
                List.range'_succ, this]

/-- C5: for every upstream line sequence the emitted chunks carry the indices
0, 1, 2, ... in emission order with no gap, duplicate or reordering; a line
without the data marker, or a data event of unrecognized type, emits no chunk;
and when the scanner reports no read error the stream result of ExecuteStream
carries no error item. -/
theorem C5_stream_chunk_indices (gj : String → String → String) (model : String) :
    (∀ lines : List String,
      (streamLoop gj model lines 0).map StreamChunk.index
        = List.range (streamLoop gj model lines 0).length)
    ∧ (∀ (l : String) (ls : List String) (n : Nat),
        strStartsWith l "data: " = false →
        streamLoop gj model (l :: ls) n = streamLoop gj model ls n)
    ∧ (∀ (l : String) (ls : List String) (n : Nat),
        strStartsWith l "data: " = true → (strDrop l 6 == "[DONE]") = false →
        (gj (strDrop l 6) "type" == "text-delta") = false →
        (gj (strDrop l 6) "type" == "tool-output-available") = false →
        streamLoop gj model (l :: ls) n = streamLoop gj model ls n)
    ∧ (∀ (o : ImgOracle) (chat : ChatEnv) (auth : Option JumaAuth)
        (rm : String) (payload : CanonPayload) (r : List StreamChunk × Option String),
        chat.scanErr = none →
        (JumaExecuteStream o chat gj auth rm payload).1 = .ok r → r.2 = none) := by
  refine ⟨?_, ?_, ?_, ?_⟩
  · intro lines
    rw [List.range_eq_range']
    exact streamLoop_indices gj model lines 0
  · intro l ls n h1
    simp [streamLoop, h1]
  · intro l ls n h1 h2 h3 h4
    simp [streamLoop, h1, h2, h3, h4]
  · intro o chat auth rm payload r hscan hok
    unfold JumaExecuteStream at hok
    rcases hauth : (jumaCredentials auth).1 == "" with _ | _ <;> simp [hauth] at hok
    rcases hmod : getJumaModelByAlias rm with _ | m <;> simp [hmod] at hok
    by_cases hstat : chat.status < 200 ∨ 300 ≤ chat.status
    · simp [hstat] at hok
    · have hpair : (streamLoop gj rm chat.lines 0, chat.scanErr) = r := by
        simpa [hstat] using hok
      rw [← hpair, hscan]

/-- C5 witness: on a concrete line sequence with a junk line, one delta event
and one unrecognized event, the indices are the range, and the skip equations
hold at those lines; the stream result of a clean ExecuteStream run has no
error item. -/
theorem C5_witness :
    ((streamLoop gjMixed "m" ["junk", "data: evt-a", "data: evt-odd"] 0).map
        StreamChunk.index
      = List.range (streamLoop gjMixed "m" ["junk", "data: evt-a", "data: evt-odd"] 0).length)
    ∧ streamLoop gjMixed "m" ["junk", "data: evt-a"] 0
      = streamLoop gjMixed "m" ["data: evt-a"] 0
    ∧ streamLoop gjMixed "m" ["data: evt-odd", "data: evt-a"] 3
      = streamLoop gjMixed "m" ["data: evt-a"] 3
    ∧ ((some ⟨200, "", ["data: evt-a"], none⟩ : Option ChatEnv).elim True (fun chat =>
        ∀ r, (JumaExecuteStream oFailAll chat gjMixed (some authTok) "juma-gpt-5.1"
          ⟨"juma-gpt-5.1", []⟩).1 = .ok r → r.2 = none)) := by
  obtain ⟨hA, hB, hC, hD⟩ := C5_stream_chunk_indices gjMixed "m"
  refine ⟨hA _, hB "junk" ["data: evt-a"] 0 (by decide),
    hC "data: evt-odd" ["data: evt-a"] 3 (by decide) (by decide) (by decide) (by decide), ?_⟩
  intro r
  exact C5_stream_chunk_indices gjMixed "juma-gpt-5.1" |>.2.2.2 oFailAll
    ⟨200, "", ["data: evt-a"], none⟩ (some authTok) "juma-gpt-5.1" ⟨"juma-gpt-5.1", []⟩ r rfl

/-- C6: on the upstream SSE body made of the text-delta events Hello and
space-world followed by the terminator, the buffered Execute returns a chat
completion whose content is the concatenation Hello world. -/
theorem C6_buffered_hello_world :
    (JumaExecute oFailAll chatHello gjHello (some authTok) "juma-gpt-5.1"
        ⟨"juma-gpt-5.1", []⟩).1
      = .ok (.chat "juma-gpt-5.1" "Hello world") := by
  decide

/-- The role of a converted message is the canonical message role. -/
theorem convertMessage_role (o : ImgOracle) (st ws : String) (uid : Nat) (m : CanonMessage) :
    (convertMessage o st ws uid m).1.role = m.role := by
  cases h : m.content <;> simp [convertMessage, h]

/-- The upload helper never changes the accumulated text. -/
theorem handleDataURLUpload_text (o : ImgOracle) (st ws : String) (acc : PartAcc)
    (d : String) : (handleDataURLUpload o st ws acc d).text = acc.text := by
  unfold handleDataURLUpload
  split
  · rfl
  · cases o.upload d with
    | none => rfl
    | some r => dsimp only; split <;> rfl

/-- The text accumulated by part processing depends only on the part and the
previous text: text parts append their text, any other part leaves it. -/
theorem processPart_text (o : ImgOracle) (st ws : String) (acc : PartAcc) (p : CanonPart) :
    (processPart o st ws acc p).text
      = (if p.ptype == "text" then acc.text ++ p.text else acc.text) := by
  unfold processPart
  split
  · rfl
  · split
    · dsimp only
      split
      · rfl
      · split
        · exact handleDataURLUpload_text o st ws acc (resolveImageURL p)
        · split
          · cases o.fetchRemote (resolveImageURL p) with
            | error e => rfl
            | ok d =>
              dsimp only
              exact handleDataURLUpload_text o st ws
                { acc with trace := acc.trace ++ [NetEffect.fetch (resolveImageURL p)] } d
          · rfl
    · rfl

/-- The accumulated text after a part fold is the same for any two oracles. -/
theorem foldl_text_congr (o o' : ImgOracle) (st ws : String) :
    ∀ (parts : List CanonPart) (acc acc' : PartAcc), acc.text = acc'.text →
      (parts.foldl (processPart o st ws) acc).text
        = (parts.foldl (processPart o' st ws) acc').text := by
  intro parts
  induction parts with
  | nil => intro _ _ h; exact h
  | cons p ps ih =>
    intro acc acc' h
    apply ih
    rw [processPart_text, processPart_text, h]

/-- The content of a converted message is the same for any two oracles. -/
theorem convertMessage_content_congr (o o' : ImgOracle) (st ws : String)
    (uid : Nat) (m : CanonMessage) :
    (convertMessage o st ws uid m).1.content = (convertMessage o' st ws uid m).1.content := by
  cases hm : m.content with
  | str s => simp [convertMessage, hm]
  | arr ps =>
    simp only [convertMessage, hm]
    exact foldl_text_congr o o' st ws ps ⟨"", [], []⟩ ⟨"", [], []⟩ rfl

/-- Roles and contents of the converted list are the same for any two
oracles. -/
theorem convertLoop_rolecontent_congr (o o' : ImgOracle) (st ws model : String) :
    ∀ (msgs : List CanonMessage) (uid : Nat),
      (convertLoop o st ws model msgs uid).1.map (fun m => (m.role, m.content))
        = (convertLoop o' st ws model msgs uid).1.map (fun m => (m.role, m.content)) := by
  intro msgs
  induction msgs with
  | nil => intro uid; rfl
  | cons m ms ih =>
    intro uid
    cases hc : (m.role == "system" && isNanobananaModel model) with
    | true => simpa [convertLoop, hc] using ih uid
    | false =>
      have hr := convertMessage_role o st ws uid m
      have hr' := convertMessage_role o' st ws uid m
      have hcnt := convertMessage_content_congr o o' st ws uid m
      simp [convertLoop, hc, hr, hr', hcnt]
      exact ih (uid + 1)

/-- Roles of the converted message list: every canonical message is kept with
its role except the system messages skipped for the Nanobanana model. -/
theorem convertLoop_roles (o : ImgOracle) (st ws model : String) :
    ∀ (msgs : List CanonMessage) (uid : Nat),
      (convertLoop o st ws model msgs uid).1.map JumaMessage.role
        = (msgs.filter (fun m => !(m.role == "system" && isNanobananaModel model))).map
            CanonMessage.role := by
  intro msgs
  induction msgs with
  | nil => intro uid; simp [convertLoop]
  | cons m ms ih =>
    intro uid
    cases h1 : m.role == "system" with
    | true =>
      cases h2 : isNanobananaModel model with
      | true => simpa [convertLoop, h1, h2, List.filter_cons] using ih uid
      | false =>
        simpa [convertLoop, h1, h2, List.filter_cons, convertMessage_role] using ih (uid + 1)
    | false => simpa [convertLoop, h1, List.filter_cons, convertMessage_role] using ih (uid + 1)

/-- C9: for the Nanobanana alias the translated sequence starts with exactly
the synthetic system prompt, keeps no caller-supplied system message, and the
request carries exactly the one ImageEdit tool whose schema requires prompt as
a string and offers imageUrls as a string array and orientation as an
enumeration; for any other alias the roles are untouched and no tool is
declared. -/
theorem C9_nanobanana_forced_tool (o : ImgOracle) (st ws mid vc tid : String)
    (msgs : List CanonMessage) :
    ((convertToJumaMessages o ⟨"juma-nanobanana-pro", msgs⟩ st ws).1.messages.map
        JumaMessage.role
      = "system" :: (msgs.filter (fun m => !(m.role == "system"))).map CanonMessage.role)
    ∧ ((convertToJumaMessages o ⟨"juma-nanobanana-pro", msgs⟩ st ws).1.messages.head?.map
        JumaMessage.content = some nanobananaSystemText)
    ∧ (buildJumaRequest (convertToJumaMessages o ⟨"juma-nanobanana-pro", msgs⟩ st ws).1
        mid ws vc "juma-nanobanana-pro" tid).tools = [jumaImageEditTool]
    ∧ jumaImageEditTool.func.name = "ImageEdit"
    ∧ jvalField jumaImageEditToolParams "required" = some (.arr [.s "prompt"])
    ∧ (((jvalField jumaImageEditToolParams "properties").bind
        (fun pr => jvalField pr "prompt")).bind (fun pp => jvalField pp "type")
      = some (.s "string"))
    ∧ (((jvalField jumaImageEditToolParams "properties").bind
        (fun pr => jvalField pr "imageUrls")).bind (fun pp => jvalField pp "type")
      = some (.s "array"))
    ∧ (((jvalField jumaImageEditToolParams "properties").bind
        (fun pr => jvalField pr "orientation")).bind (fun pp => jvalField pp "enum")
      = some (.arr [.s "vertical", .s "horizontal", .s "square"]))
    ∧ (∀ mdl : String, isNanobananaModel mdl = false →
        ((convertToJumaMessages o ⟨mdl, msgs⟩ st ws).1.messages.map JumaMessage.role
          = msgs.map CanonMessage.role)
        ∧ (buildJumaRequest (convertToJumaMessages o ⟨mdl, msgs⟩ st ws).1
            mid ws vc mdl tid).tools = []) := by
  have hnb : isNanobananaModel "juma-nanobanana-pro" = true := by decide
  refine ⟨?_, ?_, ?_, rfl, rfl, rfl, rfl, rfl, ?_⟩
  · have := convertLoop_roles o st ws "juma-nanobanana-pro" msgs 1
    simp [convertToJumaMessages, hnb, nanobananaSystemMessage, this]
  · simp [convertToJumaMessages, hnb, nanobananaSystemMessage]
  · simp [buildJumaRequest, hnb]
  · intro mdl hm
    constructor
    · have := convertLoop_roles o st ws mdl msgs 0
      simp [convertToJumaMessages, hm, this]
    · simp [buildJumaRequest, hm]

/-- Rebuilding a string from its characters is the identity. -/
theorem strMk_toList (s : String) : String.mk s.toList = s := by cases s; rfl

/-- Characters of a concatenation. -/
theorem toList_append (a b : String) : (a ++ b).toList = a.toList ++ b.toList := by
  cases a; cases b; rfl

/-- Dropping a while-prefix never lengthens a list. -/
theorem length_dropWhile_le (p : Char → Bool) :
    ∀ l : List Char, (l.dropWhile p).length ≤ l.length := by
  intro l
  induction l with
  | nil => simp
  | cons c cs ih =>
    rw [List.dropWhile_cons]
    split
    · exact le_trans ih (by simp)
    · simp

/-- A successful literal match removes exactly the literal's length. -/
theorem dropLit_some_length :
    ∀ (ps cs r : List Char), dropLit ps cs = some r → r.length + ps.length = cs.length := by
  intro ps
  induction ps with
  | nil =>
    intro cs r h
    simp [dropLit] at h
    simp [h]
  | cons p ps ih =>
    intro cs r h
    cases cs with
    | nil => simp [dropLit] at h
    | cons c cs' =>
      by_cases hc : (p == c) = true
      · simp [dropLit, hc] at h
        have := ih cs' r h
        simp at this ⊢
        omega
      · simp [dropLit, hc] at h

/-- A literal match at the head of its own concatenation succeeds. -/
theorem dropLit_self_append : ∀ (ps r : List Char), dropLit ps (ps ++ r) = some r := by
  intro ps r
  induction ps with
  | nil => rfl
  | cons p ps ih => simp [dropLit, ih]

/-- The closing step only consumes input. -/
theorem matchClose_length (u r6 : List Char) (s : String) (rest : List Char)
    (h : matchClose u r6 = some (s, rest)) : rest.length ≤ r6.length := by
  unfold matchClose at h
  rcases hdw : r6.dropWhile goSpace with _ | ⟨c, r8⟩ <;> rw [hdw] at h
  · simp at h
  · have h8 : r8.length + 1 ≤ r6.length := by
      have := length_dropWhile_le goSpace r6
      rw [hdw] at this
      simpa using this
    simp only [] at h
    by_cases hc : (c == '/') = true
    · rw [if_pos hc] at h
      rcases r8 with _ | ⟨c9, r9⟩
      · simp at h
      · by_cases h9 : (c9 == '>') = true
        · simp [h9] at h
          simp at h8
          simp [← h.2]
          omega
        · simp [h9] at h
    · rw [if_neg hc] at h
      by_cases hgt : (c == '>') = true
      · rw [if_pos hgt] at h
        simp at h
        simp [← h.2]
        omega
      · simp [hgt] at h

/-- The url body step only consumes input. -/
theorem matchUrlBody_length (r4 : List Char) (s : String) (rest : List Char)
    (h : matchUrlBody r4 = some (s, rest)) : rest.length ≤ r4.length := by
  unfold matchUrlBody at h
  rcases hdw : r4.dropWhile (fun c => !isQuoteChar c) with _ | ⟨q2, r6⟩ <;> rw [hdw] at h
  · simp at h
  · have h6 : r6.length + 1 ≤ r4.length := by
      have := length_dropWhile_le (fun c => !isQuoteChar c) r4
      rw [hdw] at this
      simpa using this
    dsimp only at h
    by_cases he : (r4.takeWhile (fun c => !isQuoteChar c)).isEmpty = true
    · simp [he] at h
    · rw [if_neg he] at h
      by_cases hq : isQuoteChar q2 = true
      · rw [if_pos hq] at h
        have := matchClose_length _ _ _ _ h
        omega
      · simp [hq] at h

/-- The quote step only consumes input. -/
theorem matchQuote_length (r3 : List Char) (s : String) (rest : List Char)
    (h : matchQuote r3 = some (s, rest)) : rest.length ≤ r3.length := by
  cases r3 with
  | nil => simp [matchQuote] at h
  | cons q1 r4 =>
    unfold matchQuote at h
    simp only [] at h
    by_cases hq : isQuoteChar q1 = true
    · rw [if_pos hq] at h
      have := matchUrlBody_length _ _ _ h
      simp
      omega
    · simp [hq] at h

/-- The url attribute step only consumes input. -/
theorem matchUrlEq_length (r2 : List Char) (s : String) (rest : List Char)
    (h : matchUrlEq r2 = some (s, rest)) : rest.length ≤ r2.length := by
  unfold matchUrlEq at h
  rcases hdl : dropLit litUrlEq r2 with _ | r3 <;> rw [hdl] at h
  · simp at h
  · have hlen := dropLit_some_length _ _ _ hdl
    have := matchQuote_length _ _ _ h
    omega

/-- The step after the tag name only consumes input. -/
theorem matchAfterName_length (r1 : List Char) (s : String) (rest : List Char)
    (h : matchAfterName r1 = some (s, rest)) : rest.length ≤ r1.length := by
  unfold matchAfterName at h
  by_cases he : (r1.takeWhile goSpace).isEmpty = true
  · simp [he] at h
  · rw [if_neg he] at h
    have h1 := matchUrlEq_length _ _ _ h
    have h2 := length_dropWhile_le goSpace r1
    omega

/-- A successful tag match consumes at least the literal tag name: the
remainder is strictly shorter than the input. -/
theorem matchGenImageTag_rest_lt (cs : List Char) (s : String) (rest : List Char)
    (h : matchGenImageTag cs = some (s, rest)) : rest.length < cs.length := by
  unfold matchGenImageTag at h
  rcases hdl : dropLit litGenImage cs with _ | r1 <;> rw [hdl] at h
  · simp at h
  · have hlen := dropLit_some_length _ _ _ hdl
    have h1 := matchAfterName_length _ _ _ h
    have : 0 < litGenImage.length := by decide
    omega

/-- The rewrite on the empty input is empty for any fuel. -/
theorem transformAux_nil : ∀ f : Nat, transformAux f [] = [] := by
  intro f; cases f <;> rfl

/-- Unfolding equation of the rewrite at a cons cell with positive fuel. -/
theorem transformAux_cons (f : Nat) (c : Char) (cs : List Char) :
    transformAux (f + 1) (c :: cs)
      = match matchGenImageTag (c :: cs) with
        | some (u, rest) =>
          "![Generated Image](".toList ++ u.toList ++ ')' :: transformAux f rest
        | none => c :: transformAux f cs := rfl

/-- The rewrite does not depend on the fuel once the fuel dominates the input
length. -/
theorem transformAux_congr :
    ∀ (f g : Nat) (cs : List Char), cs.length ≤ f → cs.length ≤ g →
      transformAux f cs = transformAux g cs := by
  intro f
  induction f with
  | zero =>
    intro g cs hf hg
    have : cs = [] := by
      cases cs
      · rfl
      · simp at hf
    subst this
    rw [transformAux_nil, transformAux_nil]
  | succ f' ih =>
    intro g cs hf hg
    cases cs with
    | nil => rw [transformAux_nil, transformAux_nil]
    | cons c cs' =>
      cases g with
      | zero => simp at hg
      | succ g' =>
        rw [transformAux_cons, transformAux_cons]
        cases hm : matchGenImageTag (c :: cs') with
        | none =>
          have : cs'.length ≤ f' := by simp at hf; omega
          have hg' : cs'.length ≤ g' := by simp at hg; omega
          rw [ih g' cs' this hg']
        | some pr =>
          rcases pr with ⟨u, rest⟩
          have hlt := matchGenImageTag_rest_lt _ _ _ hm
          have h1 : rest.length ≤ f' := by simp at hf hlt; omega
          have h2 : rest.length ≤ g' := by simp at hg hlt; omega
          dsimp only
          rw [ih g' rest h1 h2]

/-- No tag match can start at a character other than the opening bracket. -/
theorem matchGenImageTag_cons_ne (c : Char) (cs : List Char) (h : ¬c = '<') :
    matchGenImageTag (c :: cs) = none := by
  have hl : litGenImage = '<' :: "generated-image".toList := by decide
  have hb : (('<' : Char) == c) = false := by
    simp [beq_iff_eq]
    exact fun he => h he.symm
  unfold matchGenImageTag
  rw [hl, dropLit, if_neg (by simp [hb])]

/-- The rewrite passes over a prefix free of opening brackets unchanged and
continues on the remainder with its own length as fuel. -/
theorem transformAux_no_lt :
    ∀ (p cs : List Char) (f : Nat), (∀ c ∈ p, ¬c = '<') → (p ++ cs).length ≤ f →
      transformAux f (p ++ cs) = p ++ transformAux cs.length cs := by
  intro p
  induction p with
  | nil =>
    intro cs f _ hf
    simpa using transformAux_congr f cs.length cs (by simpa using hf) le_rfl
  | cons c p' ih =>
    intro cs f hp hf
    cases f with
    | zero => simp at hf
    | succ f' =>
      rw [List.cons_append, transformAux_cons,
        matchGenImageTag_cons_ne c (p' ++ cs) (hp c (by simp))]

      have hf' : (p' ++ cs).length ≤ f' := by simp at hf ⊢; omega
      rw [ih cs f' (fun d hd => hp d (by simp [hd])) hf']
      simp

/-- A while-prefix of satisfying elements is taken whole. -/
theorem takeWhile_app_all (p : Char → Bool) :
    ∀ (u r : List Char), (∀ c ∈ u, p c = true) →
      (u ++ r).takeWhile p = u ++ r.takeWhile p := by
  intro u
  induction u with
  | nil => intro r _; rfl
  | cons c u' ih =>
    intro r h
    rw [List.cons_append, List.takeWhile_cons, if_pos (h c (by simp)),
      ih r (fun d hd => h d (by simp [hd]))]
    simp

/-- A while-prefix of satisfying elements is dropped whole. -/
theorem dropWhile_app_all (p : Char → Bool) :
    ∀ (u r : List Char), (∀ c ∈ u, p c = true) →
      (u ++ r).dropWhile p = r.dropWhile p := by
  intro u
  induction u with
  | nil => intro r _; rfl
  | cons c u' ih =>
    intro r h
    rw [List.cons_append, List.dropWhile_cons, if_pos (h c (by simp))]
    exact ih r (fun d hd => h d (by simp [hd]))

/-- The tag matcher succeeds on a well-formed generated-image tag, capturing
exactly its url and leaving exactly the following input. -/
theorem matchGenImageTag_genTag (q : Char) (sl : Bool) (u : String) (s : List Char)
    (hq : isQuoteChar q = true) (hu0 : u.toList ≠ [])
    (huq : ∀ c ∈ u.toList, isQuoteChar c = false) :
    matchGenImageTag ((genTag q sl u).toList ++ s) = some (u, s) := by
  have h2 : ("/>" : String).toList = ['/', '>'] := by decide
  have h3 : (">" : String).toList = ['>'] := by decide
  have h4 : (String.mk [q]).toList = [q] := rfl
  have hlg : litGenImage
      = ['<', 'g', 'e', 'n', 'e', 'r', 'a', 't', 'e', 'd', '-', 'i', 'm', 'a', 'g', 'e'] := by
    decide
  have hul : litUrlEq = ['u', 'r', 'l', '='] := by decide
  have hfull : (genTag q sl u).toList ++ s
      = litGenImage ++ (' ' :: (litUrlEq ++ (q :: (u.toList
          ++ (q :: ((if sl then ['/', '>'] else ['>']) ++ s)))))) := by
    cases sl <;> simp [genTag, toList_append, h2, h3, h4, hlg, hul]
  have hstep1 : matchGenImageTag ((genTag q sl u).toList ++ s)
      = matchAfterName (' ' :: (litUrlEq ++ (q :: (u.toList
          ++ (q :: ((if sl then ['/', '>'] else ['>']) ++ s)))))) := by
    rw [hfull]
    unfold matchGenImageTag
    rw [dropLit_self_append]
  have htw : ((' ' :: (litUrlEq ++ (q :: (u.toList
      ++ (q :: ((if sl then ['/', '>'] else ['>']) ++ s)))))).takeWhile goSpace).isEmpty
      = false := by
    rw [List.takeWhile_cons, if_pos (by decide : goSpace ' ' = true)]
    exact List.isEmpty_cons
  have hdw : (' ' :: (litUrlEq ++ (q :: (u.toList
      ++ (q :: ((if sl then ['/', '>'] else ['>']) ++ s)))))).dropWhile goSpace
      = litUrlEq ++ (q :: (u.toList ++ (q :: ((if sl then ['/', '>'] else ['>']) ++ s)))) := by
    rw [List.dropWhile_cons, if_pos (by decide : goSpace ' ' = true), hul,
      List.cons_append, List.dropWhile_cons, if_neg (by decide), ← List.cons_append, ← hul]
  have hstep2 : matchAfterName (' ' :: (litUrlEq ++ (q :: (u.toList
      ++ (q :: ((if sl then ['/', '>'] else ['>']) ++ s))))))
      = matchUrlEq (litUrlEq ++ (q :: (u.toList
          ++ (q :: ((if sl then ['/', '>'] else ['>']) ++ s))))) := by
    unfold matchAfterName
    rw [htw, hdw]
    simp
  have hstep3 : matchUrlEq (litUrlEq ++ (q :: (u.toList
      ++ (q :: ((if sl then ['/', '>'] else ['>']) ++ s)))))
      = matchUrlBody (u.toList ++ (q :: ((if sl then ['/', '>'] else ['>']) ++ s))) := by
    simp [matchUrlEq, dropLit_self_append, matchQuote, hq]
  have htk : (u.toList ++ (q :: ((if sl then ['/', '>'] else ['>']) ++ s))).takeWhile
      (fun c => !isQuoteChar c) = u.toList := by
    rw [takeWhile_app_all _ _ _ (fun c hc => by simp [huq c hc])]
    rw [List.takeWhile_cons, if_neg (by simp [hq])]
    simp
  have hdr : (u.toList ++ (q :: ((if sl then ['/', '>'] else ['>']) ++ s))).dropWhile
      (fun c => !isQuoteChar c) = q :: ((if sl then ['/', '>'] else ['>']) ++ s) := by
    rw [dropWhile_app_all _ _ _ (fun c hc => by simp [huq c hc])]
    rw [List.dropWhile_cons, if_neg (by simp [hq])]
  have htk' : List.takeWhile (fun c => !isQuoteChar c)
      (u.data ++ q :: ((if sl = true then ['/', '>'] else ['>']) ++ s)) = u.data := htk
  have hdr' : List.dropWhile (fun c => !isQuoteChar c)
      (u.data ++ q :: ((if sl = true then ['/', '>'] else ['>']) ++ s))
      = q :: ((if sl = true then ['/', '>'] else ['>']) ++ s) := hdr
  have hu0' : u.data ≠ [] := hu0
  have hstep4 : matchUrlBody (u.toList ++ (q :: ((if sl then ['/', '>'] else ['>']) ++ s)))
      = matchClose u.toList ((if sl then ['/', '>'] else ['>']) ++ s) := by
    simp [matchUrlBody, htk, hdr, htk', hdr', hq, List.isEmpty_iff, hu0, hu0']
  have g1 : goSpace '/' = false := by decide
  have g2 : goSpace '>' = false := by decide
  have g3 : (('/' : Char) == '/') = true := by decide
  have g4 : (('>' : Char) == '>') = true := by decide
  have g5 : (('>' : Char) == '/') = false := by decide
  have hstep5 : matchClose u.toList ((if sl then ['/', '>'] else ['>']) ++ s)
      = some (u, s) := by
    cases sl <;> simp [matchClose, g1, g2, g3, g4, g5, strMk_toList]
  rw [hstep1, hstep2, hstep3, hstep4, hstep5]

/-- String concatenation through character lists. -/
theorem strAppend_mk (a b : String) : a ++ b = String.mk (a.toList ++ b.toList) := by
  cases a; cases b; rfl

/-- C7: the rewrite replaces an occurrence of the generated-image tag (either
quote style, with or without trailing slash) by the markdown image syntax for
its url, leaves the bracket-free prefix before it unchanged character for
character, continues independently on the text after it, and leaves a
bracket-free string entirely unchanged. -/
theorem C7_generated_image_tag_rewrite (p u s : String) (q : Char) (sl : Bool)
    (hp : ∀ c ∈ p.toList, ¬c = '<')
    (hq : isQuoteChar q = true)
    (hu0 : u.toList ≠ [])
    (huq : ∀ c ∈ u.toList, isQuoteChar c = false) :
    transformGeneratedImageTags (p ++ genTag q sl u ++ s)
      = p ++ "![Generated Image](" ++ u ++ ")" ++ transformGeneratedImageTags s
    ∧ transformGeneratedImageTags p = p := by
  constructor
  · have htotal : (p ++ genTag q sl u ++ s).toList
        = p.toList ++ ((genTag q sl u).toList ++ s.toList) := by
      rw [toList_append, toList_append, List.append_assoc]
    have hm := matchGenImageTag_genTag q sl u s.toList hq hu0 huq
    have hnil : matchGenImageTag ([] : List Char) = none := by decide
    unfold transformGeneratedImageTags
    rw [htotal]
    rw [transformAux_no_lt p.toList ((genTag q sl u).toList ++ s.toList) _ hp le_rfl]
    cases hL : (genTag q sl u).toList ++ s.toList with
    | nil =>
      rw [hL] at hm
      rw [hnil] at hm
      cases hm
    | cons c t =>
      rw [hL] at hm
      have hlenL := congrArg List.length hL
      have htne : (genTag q sl u).toList ≠ [] := by
        cases sl <;> simp [genTag, toList_append]
      have htpos : 1 ≤ (genTag q sl u).toList.length := by
        cases hg : (genTag q sl u).toList
        · exact absurd hg htne
        · simp
      have hslen : s.toList.length ≤ t.length := by
        rw [List.length_append, List.length_cons] at hlenL
        omega
      rw [List.length_cons, transformAux_cons, hm]
      have hcg := transformAux_congr t.length s.toList.length s.toList hslen le_rfl
      dsimp only
      rw [hcg]
      have hmk : ∀ l : List Char, (String.mk l).toList = l := fun _ => rfl
      have hparen : (")" : String).toList = [')'] := by decide
      simp [strAppend_mk, hmk, hparen, List.append_assoc]
  · have h0 := transformAux_no_lt p.toList [] p.toList.length hp (by simp)
    rw [List.append_nil] at h0
    unfold transformGeneratedImageTags
    rw [h0]
    rw [transformAux_nil]
    rw [List.append_nil, strMk_toList]

/-- C7 witness: the double-quoted tag between plain text is rewritten to the
markdown image syntax with the surrounding text unchanged, and a tag-free
string is left untouched. -/
theorem C7_witness :
    transformGeneratedImageTags ("abc" ++ genTag dQuote false "https://x/y.png" ++ "def")
      = "abc" ++ "![Generated Image](" ++ "https://x/y.png" ++ ")"
        ++ transformGeneratedImageTags "def"
    ∧ transformGeneratedImageTags "abc" = "abc" :=
  C7_generated_image_tag_rewrite "abc" "https://x/y.png" "def" dQuote false
    (by decide) (by decide) (by decide) (by decide)

/-- C8: a remote image fetch fails when the body exceeds the byte cap or when
the effective content type is not an image type, succeeds as a base64 data URL
carrying that content type otherwise, and a failed fetch leaves the part
processing with only the fetch effect recorded: no upload (hence no
negotiation request) is attempted for that image and no error is raised. -/
theorem C8_remote_image_guard :
    (∀ (detect : List Nat → String) (resp : HTTPImageResponse) (maxBytes : Nat),
      (resp.status = 200 → maxBytes < resp.body.length →
        fetchImageDataURLFromHTTP detect resp maxBytes = .error "image size exceeds limit")
      ∧ (resp.status = 200 → resp.body.length ≤ maxBytes →
          strStartsWith (if resp.contentType == "" then detect resp.body else resp.contentType)
            "image/" = false →
          fetchImageDataURLFromHTTP detect resp maxBytes
            = .error ("content-type is not image: "
                ++ (if resp.contentType == "" then detect resp.body else resp.contentType)))
      ∧ (resp.status = 200 → resp.body.length ≤ maxBytes →
          strStartsWith (if resp.contentType == "" then detect resp.body else resp.contentType)
            "image/" = true →
          fetchImageDataURLFromHTTP detect resp maxBytes
            = .ok ("data:" ++ (if resp.contentType == "" then detect resp.body else resp.contentType)
                ++ ";base64," ++ base64Encode resp.body)))
    ∧ (∀ (o : ImgOracle) (st ws : String) (acc : PartAcc) (u e : String),
        strStartsWith u "data:" = false →
        (strStartsWith u "http://" || strStartsWith u "https://") = true →
        o.fetchRemote u = .error e →
        processPart o st ws acc (mkImagePart u)
          = { acc with trace := acc.trace ++ [NetEffect.fetch u] }) := by
  constructor
  · intro detect resp maxBytes
    refine ⟨?_, ?_, ?_⟩
    · intro h200 hbig
      simp [fetchImageDataURLFromHTTP, h200, hbig]
    · intro h200 hsmall hct
      simp only [beq_iff_eq] at hct
      simp [fetchImageDataURLFromHTTP, h200, Nat.not_lt.mpr hsmall, hct]
    · intro h200 hsmall hct
      simp only [beq_iff_eq] at hct
      simp [fetchImageDataURLFromHTTP, h200, Nat.not_lt.mpr hsmall, hct]
  · intro o st ws acc u e hdata hhttp hfet
    have hne : (u == "") = false := by
      rcases eq_or_ne u "" with h0 | h0
      · subst h0; simp [strStartsWith, isPrefixList, dropLit] at hhttp
      · simp [h0]
    simp [processPart, mkImagePart, resolveImageURL, hne, hdata, hhttp, hfet]

/-- C8 witness: a text/html response is rejected, an oversized png body is
rejected, a small png is re-encoded as a data URL, and a part whose remote
fetch fails records only the fetch effect. -/
theorem C8_witness :
    fetchImageDataURLFromHTTP detectNull respHTML jumaMaxRemoteImageBytes
      = .error ("content-type is not image: " ++ "text/html")
    ∧ fetchImageDataURLFromHTTP detectNull respPNG 2 = .error "image size exceeds limit"
    ∧ fetchImageDataURLFromHTTP detectNull respPNG jumaMaxRemoteImageBytes
      = .ok ("data:" ++ "image/png" ++ ";base64," ++ base64Encode [0, 0, 0])
    ∧ processPart oFailAll "tok" "ws" ⟨"", [], []⟩ (mkImagePart "https://img.example/x")
      = ⟨"", [], [NetEffect.fetch "https://img.example/x"]⟩ := by
  obtain ⟨hF, hP⟩ := C8_remote_image_guard
  obtain ⟨_, h2, _⟩ := hF detectNull respHTML jumaMaxRemoteImageBytes
  obtain ⟨h4, _, _⟩ := hF detectNull respPNG 2
  obtain ⟨_, _, h6⟩ := hF detectNull respPNG jumaMaxRemoteImageBytes
  refine ⟨?_, ?_, ?_, ?_⟩
  · simpa using h2 rfl (by decide) (by decide)
  · exact h4 rfl (by decide)
  · simpa using h6 rfl (by decide) (by decide)
  · simpa using hP oFailAll "tok" "ws" ⟨"", [], []⟩ "https://img.example/x" "unreachable"
      (by decide) (by decide) rfl

/-- C10: neither a failed image fetch nor a failed asset upload can change
the outcome of Execute or ExecuteStream, and the converted messages keep
their roles and text content: swapping the upload/fetch oracles (in
particular for always-failing ones) leaves the result component of both
paths and the per-message role/content list unchanged, so a failed image is
silently omitted and the request proceeds. -/
theorem C10_upload_failure_nonfatal (o o' : ImgOracle) (payload : CanonPayload)
    (st ws : String) (chat : ChatEnv) (gj : String → String → String)
    (auth : Option JumaAuth) (rm : String) :
    ((convertToJumaMessages o payload st ws).1.messages.map (fun m => (m.role, m.content))
      = (convertToJumaMessages o' payload st ws).1.messages.map (fun m => (m.role, m.content)))
    ∧ (JumaExecute o chat gj auth rm payload).1 = (JumaExecute o' chat gj auth rm payload).1
    ∧ (JumaExecuteStream o chat gj auth rm payload).1
      = (JumaExecuteStream o' chat gj auth rm payload).1 := by
  refine ⟨?_, ?_, ?_⟩
  · cases hn : isNanobananaModel payload.model with
    | true =>
      have := convertLoop_rolecontent_congr o o' st ws payload.model payload.messages 1
      simp [convertToJumaMessages, hn, this]
    | false =>
      have := convertLoop_rolecontent_congr o o' st ws payload.model payload.messages 0
      simp [convertToJumaMessages, hn, this]
  · unfold JumaExecute
    cases hauth : (jumaCredentials auth).1 == "" with
    | true => simp [hauth]
    | false =>
      cases hmod : getJumaModelByAlias rm with
      | none => simp [hauth, hmod]
      | some m =>
        by_cases hstat : chat.status < 200 ∨ 300 ≤ chat.status
        · simp [hauth, hmod, hstat]
        · cases hscan : chat.scanErr <;> simp [hauth, hmod, hstat, hscan]
          split <;> rfl
  · unfold JumaExecuteStream
    cases hauth : (jumaCredentials auth).1 == "" with
    | true => simp [hauth]
    | false =>
      cases hmod : getJumaModelByAlias rm with
      | none => simp [hauth, hmod]
      | some m =>
        by_cases hstat : chat.status < 200 ∨ 300 ≤ chat.status
        · simp [hauth, hmod, hstat]
        · simp [hauth, hmod, hstat]

end Juma

end CLIProxy
